import Mathlib

/-!
Shallow embedding of the VideoSummarizer job pipeline and moment
composition engine.  Numbers are modelled as rationals (JS numbers on the
integral/decimal values the program manipulates), JS objects as structures,
optional / possibly-absent JS fields as `Option`, and JS truthiness tests
(`if (options.x)`) as explicit emptiness / zero tests.  JS `Array.prototype.sort`
with a consistent numeric comparator is a stable sort; it is modelled by
`List.insertionSort`, which is stable for the corresponding total preorder.
-/

/-- JS `Math.round`: round half toward positive infinity. -/
def jsRound (x : ℚ) : ℤ := ⌊x + 1/2⌋

/-- JS `Math.round(x * 100) / 100`: round to two decimals. -/
def round2 (x : ℚ) : ℚ := (jsRound (x * 100) : ℚ) / 100

/-- JS `a || b` for a possibly-absent number `a`: `b` when `a` is absent or `0`. -/
def qOr (a : Option ℚ) (b : ℚ) : ℚ :=
  match a with
  | none => b
  | some v => if v = 0 then b else v

/-- A detected moment (`videoComposer.js` / `videoSummarizer.js` schema). -/
structure Moment where
  title : String
  description : String
  startTime : ℚ
  endTime : ℚ
  importance : ℚ
  category : String
  reason : String
  workflowContext : String
deriving DecidableEq, Repr

/-- User filtering options for `VideoSummarizer.filterMoments`.  A `none`
field is an absent JS option. -/
structure FilterOptions where
  minImportance : Option ℚ := none
  includeCategories : Option (List String) := none
  maxMomentDuration : Option ℚ := none
  maxMoments : Option ℕ := none
  sortMomentsBy : Option String := none
deriving DecidableEq, Repr

/-- Comparator `(a, b) => b.importance - a.importance` as a preorder:
`a` may precede `b`. -/
def impGe (a b : Moment) : Prop := b.importance ≤ a.importance

/-- Comparator `(a, b) => (b.endTime - b.startTime) - (a.endTime - a.startTime)`. -/
def durGe (a b : Moment) : Prop := b.endTime - b.startTime ≤ a.endTime - a.startTime

/-- Comparator `(a, b) => a.startTime - b.startTime`. -/
def startLe (a b : Moment) : Prop := a.startTime ≤ b.startTime

instance : DecidableRel impGe := fun _ _ => inferInstanceAs (Decidable (_ ≤ _))

instance : DecidableRel durGe := fun _ _ => inferInstanceAs (Decidable (_ ≤ _))

instance : DecidableRel startLe := fun _ _ => inferInstanceAs (Decidable (_ ≤ _))

instance : IsTotal Moment impGe := ⟨fun a b => le_total b.importance a.importance⟩

instance : IsTrans Moment impGe := ⟨fun _ _ _ h1 h2 => le_trans h2 h1⟩

instance : IsTotal Moment durGe :=
  ⟨fun a b => le_total (b.endTime - b.startTime) (a.endTime - a.startTime)⟩

instance : IsTrans Moment durGe := ⟨fun _ _ _ h1 h2 => le_trans h2 h1⟩

instance : IsTotal Moment startLe := ⟨fun a b => le_total a.startTime b.startTime⟩

instance : IsTrans Moment startLe := ⟨fun _ _ _ h1 h2 => le_trans h1 h2⟩

/-- Step 1 of `filterMoments`: `if (options.minImportance) filtered =
filtered.filter(m => m.importance >= options.minImportance)`. -/
def stageMinImportance (o : FilterOptions) (l : List Moment) : List Moment :=
  match o.minImportance with
  | none => l
  | some v => if v = 0 then l else l.filter (fun m => v ≤ m.importance)

/-- Step 2: `if (options.includeCategories && options.includeCategories.length > 0)
filtered = filtered.filter(m => options.includeCategories.includes(m.category))`. -/
def stageCategories (o : FilterOptions) (l : List Moment) : List Moment :=
  match o.includeCategories with
  | none => l
  | some cats => if cats = [] then l else l.filter (fun m => m.category ∈ cats)

/-- Step 3: `if (options.maxMomentDuration) filtered =
filtered.filter(m => (m.endTime - m.startTime) <= options.maxMomentDuration)`. -/
def stageMaxDuration (o : FilterOptions) (l : List Moment) : List Moment :=
  match o.maxMomentDuration with
  | none => l
  | some d => if d = 0 then l else l.filter (fun m => m.endTime - m.startTime ≤ d)

/-- Step 4: `if (options.maxMoments && filtered.length > options.maxMoments)
filtered = filtered.sort((a,b) => b.importance - a.importance).slice(0, options.maxMoments)`. -/
def stageTruncate (o : FilterOptions) (l : List Moment) : List Moment :=
  match o.maxMoments with
  | none => l
  | some k => if k ≠ 0 ∧ k < l.length then (l.insertionSort impGe).take k else l

/-- Final ordering relation selected by `options.sortMomentsBy || 'chronological'`. -/
def finalRel (o : FilterOptions) : Moment → Moment → Prop :=
  match o.sortMomentsBy with
  | some "importance" => impGe
  | some "duration" => durGe
  | _ => startLe

instance : DecidableRel (finalRel o) := by
  unfold finalRel
  split <;> infer_instance

instance : IsTotal Moment (finalRel o) := by
  unfold finalRel
  split <;> infer_instance

instance : IsTrans Moment (finalRel o) := by
  unfold finalRel
  split <;> infer_instance

/-- Step 5 of `filterMoments`: the final `switch (sortBy)` sort. -/
def stageFinalSort (o : FilterOptions) (l : List Moment) : List Moment :=
  l.insertionSort (finalRel o)

/-- `VideoSummarizer.filterMoments(moments, options)`. -/
def filterMoments (moments : List Moment) (o : FilterOptions) : List Moment :=
  stageFinalSort o (stageTruncate o (stageMaxDuration o (stageCategories o
    (stageMinImportance o moments))))

/-- Builds a test moment with the given start/end/importance/category. -/
def mkMoment (t : String) (s e i : ℚ) (c : String) : Moment :=
  { title := t, description := t, startTime := s, endTime := e,
    importance := i, category := c, reason := t, workflowContext := t }

/-- The eight raw moments of the spec's end-to-end filtering scenario,
with importances `[9,3,7,8,2,6,5,4]`. -/
def demoMoments : List Moment :=
  [ mkMoment "m1" 0 10 9 "workflow_phase"
  , mkMoment "m2" 10 20 3 "workflow_phase"
  , mkMoment "m3" 20 30 7 "workflow_phase"
  , mkMoment "m4" 30 40 8 "workflow_phase"
  , mkMoment "m5" 40 50 2 "workflow_phase"
  , mkMoment "m6" 50 60 6 "workflow_phase"
  , mkMoment "m7" 60 70 5 "workflow_phase"
  , mkMoment "m8" 70 80 4 "workflow_phase" ]

/-- The spec scenario's options: `minImportance=5, maxMoments=3,
sortMomentsBy="importance"`. -/
def demoOptions : FilterOptions :=
  { minImportance := some 5, maxMoments := some 3,
    sortMomentsBy := some "importance" }

/-- The JSON `details` payload of a log line, restricted to the fields the
pipeline code reads back (`audioFile`, `processingFile`, the nested
`analysis.analysis.keyMoments` path, `error`); `info` stands for payloads the
code only writes.  An absent JSON field is `none`. -/
structure Details where
  audioFile : Option String := none
  processingFile : Option String := none
  keyMoments : Option (List Moment) := none
  error : Option String := none
  info : Option String := none
deriving DecidableEq, Repr

/-- One line of the day's append-only log file (`fileManager.logActivity`).
The wall-clock timestamp string is not read back by any stage and is omitted. -/
structure LogEntry where
  jobId : String
  activity : String
  details : Details
deriving DecidableEq, Repr

/-- `FileManager.getJobLogs(jobId)`: parse the day file's lines in append
order and keep those of the job. -/
def getJobLogs (lines : List LogEntry) (jobId : String) : List LogEntry :=
  lines.filter (fun e => e.jobId == jobId)

/-- The stage handlers' prerequisite resolution
`logs.find(log => log.activity === activity)` (JS `Array.prototype.find`). -/
def resolveStageInput (logs : List LogEntry) (activity : String) : Option LogEntry :=
  logs.find? (fun e => e.activity == activity)

/-- Modelled from the spec: `findLatest(jobId, activity)` returns the
last-appended event of the given kind, or an explicit absent result.  Stated
for the refinement comparison with `resolveStageInput`. -/
def findLatest (logs : List LogEntry) (activity : String) : Option LogEntry :=
  (logs.filter (fun e => e.activity == activity)).getLast?

/-- The earliest-appended event of the given kind. -/
def findEarliest (logs : List LogEntry) (activity : String) : Option LogEntry :=
  (logs.filter (fun e => e.activity == activity)).head?

/-- What a stage invocation does to the world: the log events it appends (in
order) and the HTTP status it answers. -/
structure HandlerOut where
  appended : List LogEntry
  status : ℕ
deriving DecidableEq, Repr

/-- `app.post('/transcribe/:jobId')`.  `fileExists` models `fs.existsSync`;
`transcribe` models the Whisper collaborator call outcome (its payload is the
serialized transcription embedded in the completion event). -/
def transcribeHandler (lines : List LogEntry) (jobId : String)
    (fileExists : String → Bool) (transcribe : Except String String) : HandlerOut :=
  let logs := getJobLogs lines jobId
  match resolveStageInput logs "audio_extraction_completed" with
  | none => ⟨[], 404⟩
  | some audioLog =>
    match audioLog.details.audioFile with
    | none => ⟨[], 404⟩
    | some f =>
      if f = "" then ⟨[], 404⟩
      else if fileExists ("temp/" ++ f) then
        let started : LogEntry :=
          ⟨jobId, "transcription_started", { info := some ("temp/" ++ f) }⟩
        match transcribe with
        | .ok t =>
            ⟨[started, ⟨jobId, "transcription_completed", { info := some t }⟩], 200⟩
        | .error msg =>
            ⟨[started, ⟨jobId, "transcription_failed", { error := some msg }⟩], 500⟩
      else ⟨[], 404⟩

/-- `app.post('/create-summary/:jobId')`.  `summarize` models
`videoSummarizer.createVideoSummary`.  An absent `processingFile` field makes
`path.join('temp', undefined)` throw, which the route's catch logs as a
failure. -/
def createSummaryHandler (lines : List LogEntry) (jobId : String)
    (fileExists : String → Bool) (summarize : Except String String) : HandlerOut :=
  let logs := getJobLogs lines jobId
  match resolveStageInput logs "moment_analysis_completed",
        resolveStageInput logs "processing_started" with
  | some momentLog, some processingLog =>
    match processingLog.details.processingFile with
    | none =>
        ⟨[⟨jobId, "video_summarization_failed", { error := some "TypeError" }⟩], 500⟩
    | some f =>
      if fileExists ("temp/" ++ f) then
        let moments := momentLog.details.keyMoments.getD []
        if moments.isEmpty then ⟨[], 400⟩
        else
          let started : LogEntry :=
            ⟨jobId, "video_summarization_started", { info := some f }⟩
          match summarize with
          | .ok r =>
              ⟨[started,
                ⟨jobId, "video_summarization_completed", { info := some r }⟩], 200⟩
          | .error msg =>
              ⟨[started,
                ⟨jobId, "video_summarization_failed", { error := some msg }⟩], 500⟩
      else ⟨[], 404⟩
  | _, _ => ⟨[], 404⟩

/-- `app.post('/quick-summary/:jobId')`.  `summarize` models
`videoSummarizer.createQuickSummary`; the route's catch block answers 500
without logging any event. -/
def quickSummaryHandler (lines : List LogEntry) (jobId : String)
    (summarize : Except String String) : HandlerOut :=
  let logs := getJobLogs lines jobId
  match resolveStageInput logs "moment_analysis_completed",
        resolveStageInput logs "processing_started" with
  | some _, some processingLog =>
    match processingLog.details.processingFile with
    | none => ⟨[], 500⟩
    | some _ =>
      match summarize with
      | .ok r => ⟨[⟨jobId, "quick_summary_completed", { info := some r }⟩], 200⟩
      | .error _ => ⟨[], 500⟩
  | _, _ => ⟨[], 404⟩

/-- Audio-extraction completion event for job `j1` naming `audio-a.mp3`. -/
def auditEventA : LogEntry :=
  ⟨"j1", "audio_extraction_completed", { audioFile := some "audio-a.mp3" }⟩

/-- A later audio-extraction completion event for job `j1` naming a
different file. -/
def auditEventB : LogEntry :=
  ⟨"j1", "audio_extraction_completed", { audioFile := some "audio-b.mp3" }⟩

/-- A day file where job `j1` re-ran audio extraction: two completion events
in append order. -/
def demoDupLog : List LogEntry := [auditEventA, auditEventB]

/-- Processing-started event for job `j2`. -/
def demoProcEvent : LogEntry :=
  ⟨"j2", "processing_started", { processingFile := some "proc-video.mp4" }⟩

/-- Moment-analysis completion event for job `j2` with one detected moment. -/
def demoMomentEvent : LogEntry :=
  ⟨"j2", "moment_analysis_completed",
    { keyMoments := some [mkMoment "m" 0 30 7 "workflow_phase"] }⟩

/-- A day file holding a complete prerequisite set for job `j2`'s summary
stages. -/
def demoQuickLog : List LogEntry := [demoProcEvent, demoMomentEvent]

/-- Character-list prefix test (both sides explicit so the kernel can
evaluate it). -/
def hasPrefixCL : List Char → List Char → Bool
  | _, [] => true
  | [], _ :: _ => false
  | a :: as, b :: bs => a == b && hasPrefixCL as bs

/-- Character-list infix test. -/
def hasInfixCL : List Char → List Char → Bool
  | [], pat => pat.isEmpty
  | t@(_ :: rest), pat => hasPrefixCL t pat || hasInfixCL rest pat

/-- JS `text.includes(pat)`. -/
def strContains (s pat : String) : Bool := hasInfixCL s.toList pat.toList

/-- JS `s.toLowerCase()` (ASCII, which is all the code compares). -/
def strToLower (s : String) : String := ⟨s.toList.map Char.toLower⟩

/-- JS `a || b` for a possibly-absent string: `b` when absent or empty. -/
def strOr (a : Option String) (b : String) : String :=
  match a with
  | none => b
  | some s => if s = "" then b else s

/-- One Whisper transcript segment (`{start, end, text}`); `endT` renders the
JS field `end`. -/
structure TSegment where
  start : ℚ
  endT : ℚ
  text : String
deriving DecidableEq, Repr

/-- The processed transcription handed to the moment analyzer.  `duration` /
`totalDuration` are absent when the upstream response lacked them. -/
structure Transcription where
  text : String
  segments : List TSegment
  duration : Option ℚ := none
  totalDuration : Option ℚ := none
deriving DecidableEq, Repr

/-- The analysis object a `MomentAnalyzer` entry point returns.  Advisory
metadata the claims' code paths never read back (content type, approach
strings, the force-set compression counters) is omitted. -/
structure AnalysisOut where
  keyMoments : List Moment
  summary : Option String
  totalOriginalDuration : Option ℚ
deriving DecidableEq, Repr

/-- A `MomentAnalyzer` result wrapper `{success, analysis, provider}`. -/
structure AnalysisResult where
  success : Bool
  analysis : AnalysisOut
  provider : String
deriving DecidableEq, Repr

/-- The moment-detection collaborator's JSON document, after decoding, with
each field possibly absent. -/
structure GeminiAnalysis where
  keyMoments : Option (List Moment) := none
  summary : Option String := none
  totalOriginalDuration : Option ℚ := none
deriving DecidableEq, Repr

/-- The topic-transition keyword list of `createLiberalFallback`. -/
def topicIndicators : List String :=
  [ "look at", "we can see", "going to look", "can also look"
  , "check", "checking", "review", "reviewing"
  , "move to", "moving to", "switch to", "go to"
  , "here we have", "this shows", "you can see"
  , "another", "also", "next", "now" ]

/-- `MomentAnalyzer.generateMomentTitle(segments, startTime, endTime)`
(called with `Math.floor`ed bounds). -/
def generateMomentTitle (segs : List TSegment) (startT endT : ℤ) : String :=
  let relevant := segs.filter
    (fun s => decide ((startT : ℚ) ≤ s.start ∧ s.endT ≤ (endT : ℚ)))
  if relevant = [] then "Workflow Segment"
  else
    let text := strToLower (String.intercalate " " (relevant.map (·.text)))
    if strContains text "fantasy" && strContains text "football" then
      "Fantasy Football Review"
    else if strContains text "email" then "Email Check"
    else if strContains text "trade" then "Trade Decision"
    else if strContains text "bench" then "Bench Analysis"
    else if strContains text "team" then "Team Performance"
    else if strContains text "class" || strContains text "plan" then "Class Planning"
    else if strContains text "game" then "Game Results"
    else if strContains text "points" then "Score Review"
    else "Workflow Activity"

/-- The fallback's `forEach` accumulator: the moments pushed so far and the
two running boundaries. -/
structure FBState where
  moments : List Moment
  currentStart : ℚ
  lastEnd : ℚ

/-- One iteration of the fallback's `segments.forEach` loop. -/
def fbStep (allSegs : List TSegment) (dur : ℚ) (st : FBState) (seg : TSegment) :
    FBState :=
  let text := strToLower seg.text
  let hasTopicIndicator := topicIndicators.any (fun i => strContains text i)
  if hasTopicIndicator || decide (15 < seg.start - st.lastEnd) then
    if st.lastEnd < seg.start - 5 then
      let title := generateMomentTitle allSegs ⌊st.currentStart⌋ ⌊seg.start⌋
      { moments := st.moments ++
          [{ title := title
           , description := "Workflow segment: " ++ strToLower title
           , startTime := max 0 st.currentStart
           , endTime := min dur seg.start
           , importance := 6
           , category := "workflow_phase"
           , reason := "Natural workflow transition point identified"
           , workflowContext := "Part of continuous user workflow" }]
      , currentStart := seg.start
      , lastEnd := seg.start }
    else st
  else st

/-- The fallback's whole `segments.forEach` loop from the initial state
`currentMomentStart = 0, lastMomentEnd = 0`. -/
def fbLoop (t : Transcription) (dur : ℚ) : FBState :=
  t.segments.foldl (fbStep t.segments dur) ⟨[], 0, 0⟩

/-- The fallback's trailing `// Add final moment` block. -/
def fbWithFinal (t : Transcription) (dur : ℚ) (st : FBState) : List Moment :=
  if st.currentStart < dur - 10 then
    let title := generateMomentTitle t.segments ⌊st.currentStart⌋ ⌊dur⌋
    st.moments ++
      [{ title := title
       , description := "Final workflow segment: " ++ strToLower title
       , startTime := st.currentStart
       , endTime := dur
       , importance := 6
       , category := "workflow_phase"
       , reason := "Final workflow segment"
       , workflowContext := "Conclusion of user workflow" }]
  else st.moments

/-- The fallback's equal three-way split (`moments.length = 0` then three
pushes). -/
def fbThreeSplit (t : Transcription) (dur : ℚ) : List Moment :=
  (List.range 3).map (fun i =>
    let s := (i : ℚ) * (dur / 3)
    let e := min (((i : ℚ) + 1) * (dur / 3)) dur
    let title := generateMomentTitle t.segments ⌊s⌋ ⌊e⌋
    { title := title
    , description := "Workflow phase " ++ toString (i + 1) ++ ": " ++ strToLower title
    , startTime := s
    , endTime := e
    , importance := 5 + (i : ℚ)
    , category := "workflow_phase"
    , reason := "Temporal workflow division"
    , workflowContext := "Phase " ++ toString (i + 1) ++ " of user workflow" })

/-- The key-moment list `createLiberalFallback` assembles. -/
def fbMoments (t : Transcription) : List Moment :=
  let dur := qOr t.duration 0
  let ms1 := fbWithFinal t dur (fbLoop t dur)
  if ms1.length < 3 ∧ 60 < dur then fbThreeSplit t dur else ms1

/-- `MomentAnalyzer.createLiberalFallback(transcription, aiAnalysis)`:
keyword/gap boundary detection over the transcript segments, a final tail
moment, and the equal three-way split for longer videos. -/
def createLiberalFallback (t : Transcription) (aiAnalysis : Option GeminiAnalysis) :
    AnalysisResult :=
  let dur := qOr t.duration 0
  let ms2 := fbMoments t
  { success := true
  , analysis :=
      { keyMoments := ms2
      , summary := some (strOr (aiAnalysis.bind (·.summary))
          ("Liberal analysis of " ++ toString (jsRound dur) ++
           "s workflow recording with " ++ toString ms2.length ++
           " phases identified"))
      , totalOriginalDuration := some dur }
  , provider := "liberal-fallback" }

/-- The degenerate-timestamp correction: `if (t < 10 && t > 1) t = t * 60`. -/
def fixTime (x : ℚ) : ℚ := if x < 10 ∧ 1 < x then x * 60 else x

/-- Both timestamp fields corrected (the filter callback mutates the moment
in place). -/
def fixMoment (m : Moment) : Moment :=
  { m with startTime := fixTime m.startTime, endTime := fixTime m.endTime }

/-- The range validity check applied after correction. -/
def momentTimesValid (videoDuration : ℚ) (m : Moment) : Prop :=
  0 ≤ m.startTime ∧ m.endTime ≤ videoDuration ∧ m.startTime < m.endTime

instance : DecidablePred (momentTimesValid vd) :=
  fun _ => inferInstanceAs (Decidable (_ ∧ _))

/-- The `analysis.keyMoments.filter(...)` pass of `parseGeminiResponse`:
correct degenerate timestamps, then keep range-valid moments. -/
def validateKeyMoments (videoDuration : ℚ) (kms : List Moment) : List Moment :=
  kms.filterMap (fun m =>
    let m1 := fixMoment m
    if momentTimesValid videoDuration m1 then some m1 else none)

/-- `MomentAnalyzer.parseGeminiResponse(responseText, transcription)`.
`parsed = none` is the `ParseError` case: no JSON-looking substring in the
response, or `JSON.parse` threw — the catch block answers with the liberal
fallback instead of propagating. -/
def parseGeminiResponse (parsed : Option GeminiAnalysis) (t : Transcription) :
    AnalysisResult :=
  match parsed with
  | none => createLiberalFallback t none
  | some a =>
    match a.keyMoments with
    | none => createLiberalFallback t (some a)
    | some kms =>
      if kms.isEmpty then createLiberalFallback t (some a)
      else
        let videoDuration :=
          qOr t.duration (qOr t.totalDuration (qOr a.totalOriginalDuration 300))
        { success := true
        , analysis :=
            { keyMoments := validateKeyMoments videoDuration kms
            , summary := a.summary
            , totalOriginalDuration := a.totalOriginalDuration }
        , provider := "gemini-1.5-pro" }

/-- The artifact store a job's cleanup touches: the `segments/{jobId}` and
`thumbnails/{jobId}` directories (absent or a file list) and the presence of
each name in `output/`. -/
structure ArtifactStore where
  segDir : String → Option (List String)
  thumbDir : String → Option (List String)
  outFile : String → Bool

/-- Result of `VideoSegmenter.cleanupSegments`: the early-return branch for a
missing directory carries only a message — no `deletedFiles` field. -/
structure SegCleanupResult where
  success : Bool
  deletedFiles : Option ℕ
  message : String
deriving DecidableEq, Repr

/-- Result of `cleanupThumbnails` / `cleanupOutput`: both branches carry a
count. -/
structure CountCleanupResult where
  success : Bool
  deletedFiles : ℕ
deriving DecidableEq, Repr

/-- `VideoSummarizer.cleanupJob`'s aggregate answer. -/
structure CleanupJobResult where
  success : Bool
  jobId : String
  segments : SegCleanupResult
  thumbnails : CountCleanupResult
  output : CountCleanupResult
deriving DecidableEq, Repr

/-- `VideoSegmenter.cleanupSegments(jobId)`: unlink every file of
`segments/{jobId}`, remove the directory, report the count; report only a
message when the directory is absent. -/
def cleanupSegments (jobId : String) (st : ArtifactStore) :
    SegCleanupResult × ArtifactStore :=
  match st.segDir jobId with
  | none =>
      ({ success := true, deletedFiles := none, message := "No segments to clean up" }, st)
  | some files =>
      ({ success := true, deletedFiles := some files.length
       , message := "Cleaned up " ++ toString files.length ++
           " segment files for job " ++ jobId }
      , { st with segDir := fun k => if k = jobId then none else st.segDir k })

/-- `VideoSummarizer.cleanupThumbnails(jobId)`. -/
def cleanupThumbnails (jobId : String) (st : ArtifactStore) :
    CountCleanupResult × ArtifactStore :=
  match st.thumbDir jobId with
  | none => ({ success := true, deletedFiles := 0 }, st)
  | some files =>
      ({ success := true, deletedFiles := files.length }
      , { st with thumbDir := fun k => if k = jobId then none else st.thumbDir k })

/-- `VideoSummarizer.cleanupOutput(jobId)`: unlink `summary_{jobId}.mp4` and
`summary_{jobId}_preview.mp4` when present, counting deletions. -/
def cleanupOutput (jobId : String) (st : ArtifactStore) :
    CountCleanupResult × ArtifactStore :=
  let f1 := "summary_" ++ jobId ++ ".mp4"
  let f2 := "summary_" ++ jobId ++ "_preview.mp4"
  let c1 : ℕ := if st.outFile f1 then 1 else 0
  let c2 : ℕ := if st.outFile f2 then 1 else 0
  ({ success := true, deletedFiles := c1 + c2 }
  , { st with outFile := fun f => if f = f1 ∨ f = f2 then false else st.outFile f })

/-- `VideoSummarizer.cleanupJob(jobId)`: the three per-category cleanups in
order.  The file operations of the model are total, so the catch branch
(`success: false`) is unreachable. -/
def cleanupJob (jobId : String) (st : ArtifactStore) :
    CleanupJobResult × ArtifactStore :=
  let (rs, st1) := cleanupSegments jobId st
  let (rt, st2) := cleanupThumbnails jobId st1
  let (ro, st3) := cleanupOutput jobId st2
  ({ success := true, jobId := jobId, segments := rs, thumbnails := rt, output := ro }, st3)

/-- A segment as `getCompositionStats` consumes it; only `duration` and the
count are read. -/
structure SegmentClip where
  duration : ℚ
deriving DecidableEq, Repr

/-- The statistics block of `VideoComposer.getCompositionStats` (the
file-size and quality echo fields are omitted). -/
structure CompositionStats where
  originalSegments : ℕ
  originalDuration : ℚ
  finalDuration : ℚ
  compressionRatio : ℚ
  averageSegmentDuration : ℚ
deriving DecidableEq, Repr

/-- `VideoComposer.getCompositionStats(segments, finalMetadata)` with
`finalMetadata.duration` passed directly. -/
def getCompositionStats (segments : List SegmentClip) (finalDuration : ℚ) :
    CompositionStats :=
  let originalDuration := segments.foldl (fun sum seg => sum + seg.duration) 0
  { originalSegments := segments.length
  , originalDuration := round2 originalDuration
  , finalDuration := finalDuration
  , compressionRatio := round2 ((originalDuration - finalDuration) / originalDuration * 100)
  , averageSegmentDuration := round2 (originalDuration / (segments.length : ℚ)) }

/-- The spec's formula: `(originalDuration − finalDuration) / originalDuration
× 100`, rounded to 2 decimals.  Stated separately for the refinement
comparison. -/
def compressionRatioFormula (originalDuration finalDuration : ℚ) : ℚ :=
  round2 ((originalDuration - finalDuration) / originalDuration * 100)

/-- A moment as `validateInputs` receives it from the job log JSON: either
timing field may be absent. -/
structure VMoment where
  startTime : Option ℚ := none
  endTime : Option ℚ := none
deriving DecidableEq, Repr

/-- JS `!x` for a possibly-absent number: true when absent or zero. -/
def numFalsy : Option ℚ → Bool
  | none => true
  | some v => v == 0

/-- JS `moment.startTime >= moment.endTime` (only reached when both fields
are present and non-zero). -/
def timesOutOfOrder (m : VMoment) : Bool :=
  match m.startTime, m.endTime with
  | some s, some e => e ≤ s
  | _, _ => false

/-- The per-moment rejection test of `validateInputs`:
`!moment.startTime || !moment.endTime || moment.startTime >= moment.endTime`. -/
def momentTimingInvalid (m : VMoment) : Bool :=
  numFalsy m.startTime || numFalsy m.endTime || timesOutOfOrder m

/-- The error cases `VideoSummarizer.validateInputs` throws. -/
inductive ValidationFault where
  | fileNotFound
  | noMoments
  | invalidTiming (m : VMoment)
deriving DecidableEq, Repr

/-- `VideoSummarizer.validateInputs(videoPath, moments)`; `videoExists`
models `fs.existsSync(videoPath)` (a falsy path behaves like a missing
file). -/
def validateInputs (videoExists : Bool) (moments : List VMoment) :
    Except ValidationFault Unit :=
  if !videoExists then .error .fileNotFound
  else if moments.isEmpty then .error .noMoments
  else
    match moments.find? momentTimingInvalid with
    | some m => .error (.invalidTiming m)
    | none => .ok ()

/-- `VideoSummarizer.createVideoSummary` up to its validation gate: the whole
downstream pipeline (filtering, segmentation, composition) is abstracted as
`rest`, which runs only when validation passes. -/
def createVideoSummary {α : Type} (videoExists : Bool) (moments : List VMoment)
    (rest : List VMoment → Except ValidationFault α) : Except ValidationFault α :=
  match validateInputs videoExists moments with
  | .error e => .error e
  | .ok _ => rest moments

/-- One entry of the shared `temp/` directory with its modification time in
milliseconds. -/
structure TempFile where
  name : String
  mtime : ℚ
deriving DecidableEq, Repr

/-- Result of `FileManager.cleanupTempFiles` (the formatted space string is
omitted). -/
structure TempCleanupResult where
  success : Bool
  filesRemoved : ℕ
deriving DecidableEq, Repr

/-- `FileManager.cleanupTempFiles(maxAgeHours = 24)`: unlink every temp file
strictly older than `now − maxAgeHours` hours.  The signature binds only the
age bound — it has no job-identifier parameter. -/
def cleanupTempFiles (maxAgeHours : ℚ) (now : ℚ) (temp : List TempFile) :
    TempCleanupResult × List TempFile :=
  let cutoffTime := now - maxAgeHours * (60 * 60 * 1000)
  ({ success := true
   , filesRemoved := (temp.filter (fun f => decide (f.mtime < cutoffTime))).length }
  , temp.filter (fun f => decide (¬ f.mtime < cutoffTime)))

/-- The temp-directory phase of `app.post('/cleanup/:jobId')`:
`fileManager.cleanupTempFiles(0, jobId)` — the extra `jobId` argument is
dropped by the callee's parameter list. -/
def cleanupJobTempPhase (jobId : String) (now : ℚ) (temp : List TempFile) :
    TempCleanupResult × List TempFile :=
  let _ := jobId
  cleanupTempFiles 0 now temp

/-- An eight-second recording whose transcript has no segment records. -/
def shortTranscription : Transcription :=
  { text := "quick eight second clip", segments := [], duration := some 8 }

/-- A thirty-second recording whose transcript has no segment records. -/
def demoTranscription : Transcription :=
  { text := "a half minute recording", segments := [], duration := some 30 }

/-- An artifact store where job `j9` owns one segment clip, one thumbnail and
both output artifacts. -/
def demoStore : ArtifactStore :=
  { segDir := fun k => if k = "j9" then some ["01_intro.mp4"] else none
  , thumbDir := fun k => if k = "j9" then some ["01_intro.jpg"] else none
  , outFile := fun f => f == "summary_j9.mp4" || f == "summary_j9_preview.mp4" }

theorem find_eq_head_of_filter {α : Type} (p : α → Bool) :
    ∀ l : List α, l.find? p = (l.filter p).head?
  | [] => rfl
  | a :: l => by
    have ih := find_eq_head_of_filter p l
    cases h : p a
    · rw [List.find?_cons_of_neg _ (by simp [h]), List.filter_cons_of_neg (by simp [h]), ih]
    · rw [List.find?_cons_of_pos _ h, List.filter_cons_of_pos h, List.head?_cons]

/-- C1 (amended): each pipeline stage resolves its prerequisite input from
the first-appended (earliest) event of the required activity kind in the
job's log, not from the latest one — `Array.prototype.find` scans the
append-ordered day file from the front. -/
theorem resolveStage_uses_earliest_event (lines : List LogEntry)
    (jobId activity : String) :
    resolveStageInput (getJobLogs lines jobId) activity =
      findEarliest (getJobLogs lines jobId) activity := by
  unfold resolveStageInput findEarliest
  exact find_eq_head_of_filter _ _

/-- C1 (counterexample): with two audio-extraction completion events appended
for job `j1`, the transcribe stage resolves the first-appended one — not the
last-appended event `findLatest` denotes — and its `transcription_started`
event records the first event's audio path. -/
theorem resolveStage_not_latest_counterexample :
    resolveStageInput (getJobLogs demoDupLog "j1") "audio_extraction_completed" =
        some auditEventA ∧
    findLatest (getJobLogs demoDupLog "j1") "audio_extraction_completed" =
        some auditEventB ∧
    auditEventA ≠ auditEventB ∧
    (transcribeHandler demoDupLog "j1" (fun _ => true) (Except.ok "t")).appended.head? =
      some ⟨"j1", "transcription_started", { info := some "temp/audio-a.mp3" }⟩ :=
  ⟨by decide, by decide, by decide, by decide⟩

theorem validateKeyMoments_map_filter (vd : ℚ) :
    ∀ kms : List Moment,
      validateKeyMoments vd kms =
        (kms.map fixMoment).filter (fun m => decide (momentTimesValid vd m))
  | [] => rfl
  | m :: kms => by
    have ih := validateKeyMoments_map_filter vd kms
    simp only [validateKeyMoments] at ih ⊢
    by_cases h : momentTimesValid vd (fixMoment m) <;>
      simp [List.filterMap_cons, List.map_cons, List.filter_cons, h, ih]

/-- C6: the key-moment validation pass first multiplies any timestamp
strictly between 1 and 10 by 60, then keeps exactly the moments satisfying
`0 ≤ startTime < endTime ≤ videoDuration`; timestamps outside `(1, 10)` are
left unchanged, and `{startTime: 1.5, endTime: 3.2}` becomes `{90, 192}`. -/
theorem degenerate_timestamp_correction :
    (∀ (vd : ℚ) (kms : List Moment),
        validateKeyMoments vd kms =
          (kms.map fixMoment).filter (fun m => decide (momentTimesValid vd m))) ∧
    (∀ x : ℚ, 1 < x → x < 10 → fixTime x = x * 60) ∧
    (∀ x : ℚ, ¬ (1 < x ∧ x < 10) → fixTime x = x) ∧
    fixMoment (mkMoment "m" 1.5 3.2 7 "navigation") = mkMoment "m" 90 192 7 "navigation" :=
  ⟨validateKeyMoments_map_filter,
   fun _ h1 h2 => if_pos ⟨h2, h1⟩,
   fun _ h => if_neg (fun hc => h ⟨hc.2, hc.1⟩),
   by norm_num [fixMoment, fixTime, mkMoment, Moment.mk.injEq]⟩

/-- C6 (witness): `1.5` lies strictly between 1 and 10 and is rescaled to
`1.5 × 60 = 90`. -/
theorem degenerate_timestamp_correction_witness :
    (1 : ℚ) < 1.5 ∧ (1.5 : ℚ) < 10 ∧ fixTime 1.5 = 1.5 * 60 :=
  ⟨by norm_num, by norm_num,
   degenerate_timestamp_correction.2.1 1.5 (by norm_num) (by norm_num)⟩

theorem jsRound_eq (x : ℚ) (n : ℤ) (h1 : (n : ℚ) ≤ x + 1/2) (h2 : x + 1/2 < n + 1) :
    jsRound x = n := by
  unfold jsRound
  rw [Int.floor_eq_iff]
  exact ⟨h1, h2⟩

theorem stats_demo_60 : (getCompositionStats [⟨60⟩, ⟨40⟩] 40).compressionRatio = 60 := by
  have h : jsRound ((((0 : ℚ) + 60 + 40) - 40) / ((0 : ℚ) + 60 + 40) * 100 * 100) = 6000 :=
    jsRound_eq _ 6000 (by norm_num) (by norm_num)
  show (jsRound ((((0 : ℚ) + 60 + 40) - 40) / ((0 : ℚ) + 60 + 40) * 100 * 100) : ℚ) / 100 = 60
  rw [h]
  norm_num

theorem stats_demo_neg20 :
    (getCompositionStats [⟨60⟩, ⟨40⟩] 120).compressionRatio = -20 := by
  have h : jsRound ((((0 : ℚ) + 60 + 40) - 120) / ((0 : ℚ) + 60 + 40) * 100 * 100) = -2000 :=
    jsRound_eq _ (-2000) (by norm_num) (by norm_num)
  show (jsRound ((((0 : ℚ) + 60 + 40) - 120) / ((0 : ℚ) + 60 + 40) * 100 * 100) : ℚ) / 100 = -20
  rw [h]
  norm_num

/-- C7: for a segment list of positive total duration, the composition
statistics' compression ratio is `(original − final) / original × 100`
rounded to two decimals, and negative ratios pass through unclamped:
`(100, 40) ↦ 60` and `(100, 120) ↦ -20`. -/
theorem compositionStats_compressionRatio (segments : List SegmentClip) (fd : ℚ)
    (_hpos : 0 < segments.foldl (fun sum seg => sum + seg.duration) 0) :
    (getCompositionStats segments fd).compressionRatio =
      compressionRatioFormula (segments.foldl (fun sum seg => sum + seg.duration) 0) fd ∧
    (getCompositionStats [⟨60⟩, ⟨40⟩] 40).compressionRatio = 60 ∧
    (getCompositionStats [⟨60⟩, ⟨40⟩] 120).compressionRatio = -20 :=
  ⟨rfl, stats_demo_60, stats_demo_neg20⟩

/-- C7 (witness): the two-segment list of durations 60 and 40 totals 100,
and the statistics block agrees with the formula on it. -/
theorem compositionStats_compressionRatio_witness :
    (0 : ℚ) < [SegmentClip.mk 60, SegmentClip.mk 40].foldl
        (fun sum seg => sum + seg.duration) 0 ∧
    (getCompositionStats [⟨60⟩, ⟨40⟩] 40).compressionRatio =
      compressionRatioFormula
        ([SegmentClip.mk 60, SegmentClip.mk 40].foldl
          (fun sum seg => sum + seg.duration) 0) 40 :=
  ⟨by show (0 : ℚ) < (0 : ℚ) + 60 + 40; norm_num,
   (compositionStats_compressionRatio [⟨60⟩, ⟨40⟩] 40
      (by show (0 : ℚ) < (0 : ℚ) + 60 + 40; norm_num)).1⟩

/-- C9: a moment list containing a moment whose `startTime` is exactly 0, or
whose `startTime` or `endTime` field is absent, is rejected by
`createVideoSummary`'s validation gate with an invalid-timing fault before
the downstream pipeline runs — whatever that pipeline is. -/
theorem createVideoSummary_rejects_zero_start {α : Type}
    (moments : List VMoment) (m : VMoment) (hm : m ∈ moments)
    (hbad : m.startTime = some 0 ∨ m.startTime = none ∨ m.endTime = none)
    (rest : List VMoment → Except ValidationFault α) :
    ∃ m2, createVideoSummary true moments rest =
      Except.error (ValidationFault.invalidTiming m2) := by
  have hbadb : momentTimingInvalid m = true := by
    rcases hbad with h | h | h <;> simp [momentTimingInvalid, numFalsy, h]
  have hne : moments.isEmpty = false := by
    cases moments with
    | nil => cases hm
    | cons a l => rfl
  obtain ⟨m2, hfind⟩ := Option.isSome_iff_exists.mp
    (List.find?_isSome.mpr ⟨m, hm, hbadb⟩)
  exact ⟨m2, by simp [createVideoSummary, validateInputs, hne, hfind]⟩

/-- C9 (witness): the single moment `{startTime: 0, endTime: 5}` satisfies
`0 ≤ startTime < endTime` yet is rejected. -/
theorem createVideoSummary_rejects_zero_start_witness :
    ∃ m2, createVideoSummary true [⟨some 0, some 5⟩]
        (fun _ => Except.ok ()) =
      Except.error (ValidationFault.invalidTiming m2) :=
  createVideoSummary_rejects_zero_start _ ⟨some 0, some 5⟩ (by decide) (Or.inl rfl) _

/-- C10: the per-job cleanup endpoint calls the temp cleaner with a zero age
bound and the cleaner has no job parameter to bind, so every temp file
modified before the call is deleted — regardless of which job it belongs to —
and the outcome is independent of the requested job identifier. -/
theorem cleanup_endpoint_deletes_all_temp (jobId : String) (now : ℚ)
    (temp : List TempFile) (h : ∀ f ∈ temp, f.mtime < now) :
    (cleanupJobTempPhase jobId now temp).2 = [] ∧
    (cleanupJobTempPhase jobId now temp).1.filesRemoved = temp.length ∧
    (∀ otherJob : String,
        cleanupJobTempPhase otherJob now temp = cleanupJobTempPhase jobId now temp) := by
  have hc : now - 0 * (60 * 60 * 1000) = now := by ring
  refine ⟨?_, ?_, fun _ => rfl⟩
  · simp only [cleanupJobTempPhase, cleanupTempFiles, hc]
    exact List.filter_eq_nil_iff.mpr (fun f hf => by simpa using h f hf)
  · simp only [cleanupJobTempPhase, cleanupTempFiles, hc]
    rw [List.filter_eq_self.mpr (fun f hf => by simpa using h f hf)]

/-- C10 (witness): cleaning up job `j1` deletes both temp files, including
the one belonging to another job. -/
theorem cleanup_endpoint_deletes_all_temp_witness :
    (∀ f ∈ [TempFile.mk "proc-other-job.mp4" 5, TempFile.mk "audio-j1.mp3" 7],
        f.mtime < (10 : ℚ)) ∧
    (cleanupJobTempPhase "j1" 10
        [TempFile.mk "proc-other-job.mp4" 5, TempFile.mk "audio-j1.mp3" 7]).2 = [] :=
  ⟨by decide,
   (cleanup_endpoint_deletes_all_temp "j1" 10
      [TempFile.mk "proc-other-job.mp4" 5, TempFile.mk "audio-j1.mp3" 7] (by decide)).1⟩

theorem fbStep_cases (allSegs : List TSegment) (dur : ℚ) (st : FBState) (seg : TSegment) :
    fbStep allSegs dur st seg = st ∨ (fbStep allSegs dur st seg).moments ≠ [] := by
  simp only [fbStep]
  split
  · split
    · right; simp
    · left; rfl
  · left; rfl

theorem fbLoop_start_eq_zero_of_nil (allSegs : List TSegment) (dur : ℚ) :
    ∀ (segs : List TSegment) (st : FBState),
      (st.moments = [] → st.currentStart = 0) →
      (segs.foldl (fbStep allSegs dur) st).moments = [] →
      (segs.foldl (fbStep allSegs dur) st).currentStart = 0
  | [], _, h => h
  | seg :: rest, st, h => by
    simp only [List.foldl_cons]
    refine fbLoop_start_eq_zero_of_nil allSegs dur rest _ ?_
    rcases fbStep_cases allSegs dur st seg with he | hne
    · rw [he]; exact h
    · intro hm; exact absurd hm hne

theorem fbMoments_nonempty (t : Transcription) (h : 10 < qOr t.duration 0) :
    fbMoments t ≠ [] := by
  simp only [fbMoments]
  split_ifs with h3
  · simp only [fbThreeSplit, ne_eq, List.map_eq_nil_iff, List.range_eq_nil]
    simp
    exact ⟨0, by norm_num⟩
  · intro hnil
    simp only [fbWithFinal] at hnil
    split_ifs at hnil with hfin
    · exact absurd hnil (by simp)
    · have h0 : (fbLoop t (qOr t.duration 0)).currentStart = 0 := by
        unfold fbLoop at hnil ⊢
        exact fbLoop_start_eq_zero_of_nil t.segments (qOr t.duration 0) t.segments
          ⟨[], 0, 0⟩ (fun _ => rfl) hnil
      apply hfin
      rw [h0]
      linarith

/-- C3 (amended): a moment-detection response that cannot be parsed in the
expected JSON shape is not propagated as a fault — the engine answers with
the deterministic liberal fallback (a success result), and whenever the
transcript's duration exceeds 10 seconds the fallback's key-moment list is
non-empty (each entry being a fully-populated `Moment` record by
construction). -/
theorem parse_fault_falls_back (t : Transcription) (h : 10 < qOr t.duration 0) :
    parseGeminiResponse none t = createLiberalFallback t none ∧
    (parseGeminiResponse none t).analysis.keyMoments ≠ [] ∧
    (parseGeminiResponse none t).success = true :=
  ⟨rfl, fbMoments_nonempty t h, rfl⟩

/-- C3 (witness): a 30-second transcript takes the fallback to a non-empty
moment list. -/
theorem parse_fault_falls_back_witness :
    10 < qOr demoTranscription.duration 0 ∧
    (parseGeminiResponse none demoTranscription).analysis.keyMoments ≠ [] :=
  ⟨by norm_num [demoTranscription, qOr],
   (parse_fault_falls_back demoTranscription (by norm_num [demoTranscription, qOr])).2.1⟩

/-- C3 (counterexample): for an 8-second recording with a present transcript,
the liberal fallback returns an empty key-moment list — the final-moment
guard `currentMomentStart < duration - 10` fails and the three-way split
needs `duration > 60`. -/
theorem parse_fault_falls_back_counterexample :
    (parseGeminiResponse none shortTranscription).analysis.keyMoments = [] := by
  show fbMoments shortTranscription = []
  unfold fbMoments fbWithFinal fbLoop shortTranscription
  norm_num [qOr]

/-- C4 (amended): past their prerequisite checks, the transcribe and
create-summary stages append exactly one terminal (`*_completed` or
`*_failed`) event whatever the collaborator outcome; the quick-summary stage
appends exactly one completion event on success but appends nothing at all
when its collaborator fails. -/
theorem stage_terminal_event_logging (lines : List LogEntry) (jobId : String) :
    (∀ (fe : String → Bool) (out : Except String String)
        (audioLog : LogEntry) (f : String),
        resolveStageInput (getJobLogs lines jobId) "audio_extraction_completed" =
          some audioLog →
        audioLog.details.audioFile = some f →
        f ≠ "" →
        fe ("temp/" ++ f) = true →
        ((transcribeHandler lines jobId fe out).appended.countP
            (fun e => e.activity == "transcription_completed" ||
              e.activity == "transcription_failed")) = 1) ∧
    (∀ (fe : String → Bool) (out : Except String String)
        (momentLog processingLog : LogEntry) (f : String),
        resolveStageInput (getJobLogs lines jobId) "moment_analysis_completed" =
          some momentLog →
        resolveStageInput (getJobLogs lines jobId) "processing_started" =
          some processingLog →
        processingLog.details.processingFile = some f →
        fe ("temp/" ++ f) = true →
        momentLog.details.keyMoments.getD [] ≠ [] →
        ((createSummaryHandler lines jobId fe out).appended.countP
            (fun e => e.activity == "video_summarization_completed" ||
              e.activity == "video_summarization_failed")) = 1) ∧
    (∀ (out : Except String String) (momentLog processingLog : LogEntry) (f : String),
        resolveStageInput (getJobLogs lines jobId) "moment_analysis_completed" =
          some momentLog →
        resolveStageInput (getJobLogs lines jobId) "processing_started" =
          some processingLog →
        processingLog.details.processingFile = some f →
        ((∀ r, out = Except.ok r →
            ((quickSummaryHandler lines jobId out).appended.countP
              (fun e => e.activity == "quick_summary_completed")) = 1) ∧
         (∀ msg, out = Except.error msg →
            (quickSummaryHandler lines jobId out).appended = []))) := by
  refine ⟨?_, ?_, ?_⟩
  · intro fe out audioLog f h1 h2 h3 h4
    cases out <;>
      simp [transcribeHandler, h1, h2, h3, h4, List.countP_cons]
  · intro fe out momentLog processingLog f h1 h2 h3 h4 h5
    have h5b : (momentLog.details.keyMoments.getD []).isEmpty = false := by
      cases hk : momentLog.details.keyMoments.getD [] with
      | nil => exact absurd hk h5
      | cons a l => rfl
    cases out <;>
      simp [createSummaryHandler, h1, h2, h3, h4, h5b, List.countP_cons]
  · intro out momentLog processingLog f h1 h2 h3
    constructor
    · rintro r rfl
      simp [quickSummaryHandler, h1, h2, h3, List.countP_cons]
    · rintro msg rfl
      simp [quickSummaryHandler, h1, h2, h3]

/-- C4 (witness): a failing transcription still appends exactly one terminal
event; a successful quick summary appends exactly one completion event; a
failing quick summary appends nothing. -/
theorem stage_terminal_event_logging_witness :
    ((transcribeHandler demoDupLog "j1" (fun _ => true)
        (Except.error "rate limited")).appended.countP
      (fun e => e.activity == "transcription_completed" ||
        e.activity == "transcription_failed")) = 1 ∧
    ((quickSummaryHandler demoQuickLog "j2" (Except.ok "summary")).appended.countP
      (fun e => e.activity == "quick_summary_completed")) = 1 ∧
    (quickSummaryHandler demoQuickLog "j2" (Except.error "boom")).appended = [] :=
  ⟨(stage_terminal_event_logging demoDupLog "j1").1 _ _ auditEventA "audio-a.mp3"
      (by decide) rfl (by decide) rfl,
   ((stage_terminal_event_logging demoQuickLog "j2").2.2 _ demoMomentEvent
      demoProcEvent "proc-video.mp4" (by decide) (by decide) rfl).1 "summary" rfl,
   ((stage_terminal_event_logging demoQuickLog "j2").2.2 _ demoMomentEvent
      demoProcEvent "proc-video.mp4" (by decide) (by decide) rfl).2 "boom" rfl⟩

/-- C4 (counterexample): job `j2` has its prerequisites in the log (the
response is 500, not 404), yet the failing quick-summary invocation appends
no event — in particular no `*_failed` event. -/
theorem quickSummary_failure_appends_nothing :
    (quickSummaryHandler demoQuickLog "j2" (Except.error "ffmpeg failed")).status = 500 ∧
    (quickSummaryHandler demoQuickLog "j2" (Except.error "ffmpeg failed")).appended = [] :=
  ⟨by decide, by decide⟩

/-- C5 (amended): running `cleanupJob` twice in a row always succeeds; the
second call reports zero deleted thumbnails and zero deleted outputs, but its
segments category reports no deleted-file count at all (only the
no-segments message), rather than a zero count. -/
theorem cleanupJob_second_call (jobId : String) (st : ArtifactStore) :
    ((cleanupJob jobId (cleanupJob jobId st).2).1).success = true ∧
    ((cleanupJob jobId (cleanupJob jobId st).2).1).segments =
      { success := true, deletedFiles := none, message := "No segments to clean up" } ∧
    ((cleanupJob jobId (cleanupJob jobId st).2).1).thumbnails =
      { success := true, deletedFiles := 0 } ∧
    ((cleanupJob jobId (cleanupJob jobId st).2).1).output =
      { success := true, deletedFiles := 0 } := by
  cases h1 : st.segDir jobId <;> cases h2 : st.thumbDir jobId <;>
    simp [cleanupJob, cleanupSegments, cleanupThumbnails, cleanupOutput, h1, h2]

/-- C5 (counterexample): after cleaning job `j9` once, the second cleanup's
segments category carries no deleted-file count (the claim expects the count
0 in every category); the first call did count the one segment file. -/
theorem cleanupJob_segments_count_absent :
    ((cleanupJob "j9" (cleanupJob "j9" demoStore).2).1).segments.deletedFiles = none ∧
    ¬ ((cleanupJob "j9" (cleanupJob "j9" demoStore).2).1).segments.deletedFiles
        = some 0 ∧
    ((cleanupJob "j9" demoStore).1).segments.deletedFiles = some 1 :=
  ⟨by decide, by decide, by decide⟩

theorem mem_of_stageMinImportance {o : FilterOptions} {l : List Moment} {m : Moment}
    (h : m ∈ stageMinImportance o l) : m ∈ l := by
  unfold stageMinImportance at h
  split at h
  · exact h
  · split at h
    · exact h
    · exact (List.mem_filter.mp h).1

theorem mem_of_stageCategories {o : FilterOptions} {l : List Moment} {m : Moment}
    (h : m ∈ stageCategories o l) : m ∈ l := by
  unfold stageCategories at h
  split at h
  · exact h
  · split at h
    · exact h
    · exact (List.mem_filter.mp h).1

theorem mem_of_stageMaxDuration {o : FilterOptions} {l : List Moment} {m : Moment}
    (h : m ∈ stageMaxDuration o l) : m ∈ l := by
  unfold stageMaxDuration at h
  split at h
  · exact h
  · split at h
    · exact h
    · exact (List.mem_filter.mp h).1

theorem mem_of_stageTruncate {o : FilterOptions} {l : List Moment} {m : Moment}
    (h : m ∈ stageTruncate o l) : m ∈ l := by
  unfold stageTruncate at h
  split at h
  · exact h
  · split at h
    · exact (List.mem_insertionSort _).mp (List.mem_of_mem_take h)
    · exact h

theorem mem_of_stageFinalSort {o : FilterOptions} {l : List Moment} {m : Moment}
    (h : m ∈ stageFinalSort o l) : m ∈ l :=
  (List.mem_insertionSort _).mp h

theorem stageMinImportance_eq_filter {o : FilterOptions} {v : ℚ}
    (ho : o.minImportance = some v) (hv : v ≠ 0) (l : List Moment) :
    stageMinImportance o l = l.filter (fun m => decide (v ≤ m.importance)) := by
  unfold stageMinImportance
  rw [ho]
  exact if_neg hv

theorem stageCategories_eq_filter {o : FilterOptions} {cats : List String}
    (ho : o.includeCategories = some cats) (hc : cats ≠ []) (l : List Moment) :
    stageCategories o l = l.filter (fun m => decide (m.category ∈ cats)) := by
  unfold stageCategories
  rw [ho]
  exact if_neg hc

theorem stageMaxDuration_eq_filter {o : FilterOptions} {d : ℚ}
    (ho : o.maxMomentDuration = some d) (hd : d ≠ 0) (l : List Moment) :
    stageMaxDuration o l = l.filter (fun m => decide (m.endTime - m.startTime ≤ d)) := by
  unfold stageMaxDuration
  rw [ho]
  exact if_neg hd

theorem stageTruncate_eq {o : FilterOptions} {k : ℕ} (ho : o.maxMoments = some k)
    (l : List Moment) :
    stageTruncate o l =
      if k ≠ 0 ∧ k < l.length then (l.insertionSort impGe).take k else l := by
  unfold stageTruncate
  rw [ho]

theorem stageMinImportance_prop {o : FilterOptions} {l : List Moment} {m : Moment}
    {v : ℚ} (ho : o.minImportance = some v) (hv : v ≠ 0)
    (h : m ∈ stageMinImportance o l) : v ≤ m.importance := by
  rw [stageMinImportance_eq_filter ho hv] at h
  simpa using (List.mem_filter.mp h).2

theorem stageCategories_prop {o : FilterOptions} {l : List Moment} {m : Moment}
    {cats : List String} (ho : o.includeCategories = some cats) (hc : cats ≠ [])
    (h : m ∈ stageCategories o l) : m.category ∈ cats := by
  rw [stageCategories_eq_filter ho hc] at h
  simpa using (List.mem_filter.mp h).2

theorem stageMaxDuration_prop {o : FilterOptions} {l : List Moment} {m : Moment}
    {d : ℚ} (ho : o.maxMomentDuration = some d) (hd : d ≠ 0)
    (h : m ∈ stageMaxDuration o l) : m.endTime - m.startTime ≤ d := by
  rw [stageMaxDuration_eq_filter ho hd] at h
  simpa using (List.mem_filter.mp h).2

theorem mem_filterMoments {ms : List Moment} {o : FilterOptions} {m : Moment}
    (h : m ∈ filterMoments ms o) :
    m ∈ stageMaxDuration o (stageCategories o (stageMinImportance o ms)) :=
  mem_of_stageTruncate (mem_of_stageFinalSort h)

theorem filterMoments_length_le {ms : List Moment} {o : FilterOptions} {k : ℕ}
    (ho : o.maxMoments = some k) (hk : k ≠ 0) : (filterMoments ms o).length ≤ k := by
  unfold filterMoments stageFinalSort
  rw [List.length_insertionSort, stageTruncate_eq ho]
  split_ifs with hcond
  · rw [List.length_take]
    exact inf_le_left
  · have hnlt : ¬ k < (stageMaxDuration o (stageCategories o
        (stageMinImportance o ms))).length := fun hlt => hcond ⟨hk, hlt⟩
    omega

theorem filterMoments_sorted (ms : List Moment) (o : FilterOptions) :
    List.Sorted (finalRel o) (filterMoments ms o) := by
  unfold filterMoments stageFinalSort
  exact List.sorted_insertionSort _ _

/-- C2: every filtered moment clears the importance threshold (when set
non-zero) and lies in the category allow-list (when set non-empty); the
output length respects the moment cap (when set non-zero); the output is
sorted by the requested final order; and the spec's eight-moment scenario
(`minImportance=5, maxMoments=3, sortMomentsBy="importance"`) yields exactly
the importance-9, 8, 7 moments in that order. -/
theorem filterMoments_contract (ms : List Moment) (o : FilterOptions) :
    (∀ v : ℚ, o.minImportance = some v → v ≠ 0 →
        ∀ m ∈ filterMoments ms o, v ≤ m.importance) ∧
    (∀ cats : List String, o.includeCategories = some cats → cats ≠ [] →
        ∀ m ∈ filterMoments ms o, m.category ∈ cats) ∧
    (∀ k : ℕ, o.maxMoments = some k → k ≠ 0 → (filterMoments ms o).length ≤ k) ∧
    List.Sorted (finalRel o) (filterMoments ms o) ∧
    filterMoments demoMoments demoOptions =
      [ mkMoment "m1" 0 10 9 "workflow_phase"
      , mkMoment "m4" 30 40 8 "workflow_phase"
      , mkMoment "m3" 20 30 7 "workflow_phase" ] := by
  refine ⟨?_, ?_, ?_, filterMoments_sorted ms o, by decide⟩
  · intro v ho hv m hm
    exact stageMinImportance_prop ho hv
      (mem_of_stageCategories (mem_of_stageMaxDuration (mem_filterMoments hm)))
  · intro cats ho hc m hm
    exact stageCategories_prop ho hc
      (mem_of_stageMaxDuration (mem_filterMoments hm))
  · intro k ho hk
    exact filterMoments_length_le ho hk

/-- C2 (witness): on the spec scenario the output keeps at most 3 moments
and every kept moment has importance at least 5. -/
theorem filterMoments_contract_witness :
    (filterMoments demoMoments demoOptions).length ≤ 3 ∧
    (∀ m ∈ filterMoments demoMoments demoOptions, (5 : ℚ) ≤ m.importance) :=
  ⟨(filterMoments_contract demoMoments demoOptions).2.2.1 3 rfl (by norm_num),
   fun m hm => (filterMoments_contract demoMoments demoOptions).1 5 rfl
     (by norm_num) m hm⟩

theorem stageMinImportance_self (o : FilterOptions) (ms : List Moment) :
    stageMinImportance o (filterMoments ms o) = filterMoments ms o := by
  cases ho : o.minImportance with
  | none => unfold stageMinImportance; rw [ho]
  | some v =>
    by_cases hv : v = 0
    · unfold stageMinImportance; rw [ho]; exact if_pos hv
    · rw [stageMinImportance_eq_filter ho hv]
      refine List.filter_eq_self.mpr (fun m hm => ?_)
      simpa using stageMinImportance_prop ho hv
        (mem_of_stageCategories (mem_of_stageMaxDuration (mem_filterMoments hm)))

theorem stageCategories_self (o : FilterOptions) (ms : List Moment) :
    stageCategories o (filterMoments ms o) = filterMoments ms o := by
  cases ho : o.includeCategories with
  | none => unfold stageCategories; rw [ho]
  | some cats =>
    by_cases hc : cats = []
    · unfold stageCategories; rw [ho]; exact if_pos hc
    · rw [stageCategories_eq_filter ho hc]
      refine List.filter_eq_self.mpr (fun m hm => ?_)
      simpa using stageCategories_prop ho hc
        (mem_of_stageMaxDuration (mem_filterMoments hm))

theorem stageMaxDuration_self (o : FilterOptions) (ms : List Moment) :
    stageMaxDuration o (filterMoments ms o) = filterMoments ms o := by
  cases ho : o.maxMomentDuration with
  | none => unfold stageMaxDuration; rw [ho]
  | some d =>
    by_cases hd : d = 0
    · unfold stageMaxDuration; rw [ho]; exact if_pos hd
    · rw [stageMaxDuration_eq_filter ho hd]
      refine List.filter_eq_self.mpr (fun m hm => ?_)
      simpa using stageMaxDuration_prop ho hd (mem_filterMoments hm)

theorem stageTruncate_self (o : FilterOptions) (ms : List Moment) :
    stageTruncate o (filterMoments ms o) = filterMoments ms o := by
  cases ho : o.maxMoments with
  | none => unfold stageTruncate; rw [ho]
  | some k =>
    rw [stageTruncate_eq ho]
    split_ifs with hcond
    · exact absurd (lt_of_lt_of_le hcond.2 (filterMoments_length_le ho hcond.1))
        (lt_irrefl k)
    · rfl

theorem stageFinalSort_self (o : FilterOptions) (ms : List Moment) :
    stageFinalSort o (filterMoments ms o) = filterMoments ms o := by
  unfold stageFinalSort
  exact (filterMoments_sorted ms o).insertionSort_eq

/-- C8: re-applying `filterMoments` with the same options to its own output
returns that output unchanged — the filters keep everything, the cap is no
longer exceeded, and the stable final sort fixes an already-sorted list. -/
theorem filterMoments_idempotent (ms : List Moment) (o : FilterOptions) :
    filterMoments (filterMoments ms o) o = filterMoments ms o := by
  show stageFinalSort o (stageTruncate o (stageMaxDuration o (stageCategories o
    (stageMinImportance o (filterMoments ms o))))) = filterMoments ms o
  rw [stageMinImportance_self, stageCategories_self, stageMaxDuration_self,
    stageTruncate_self, stageFinalSort_self]



